import Mathlib

/-!
A shallow embedding of the keyframe animation engine of `src/animation.c`
(de Jong Explorer).  Keyframes live in an ordered store (a `GtkListStore`
in the C code, modelled as a `List`); an `AnimationIter` is a cursor over
the timeline; the animation serializes to a chunked binary file.

`gdouble` values are modelled as `ℚ`: every arithmetic operation the
verified claims exercise (addition, subtraction, comparison, division by
a nonzero constant, halving) is exact in IEEE-754 binary64 at the inputs
considered, so the rational model agrees with the C semantics there.

`chunked-file.c`, `spline.c` and the de Jong parameter/pixbuf codecs are
not part of the sources under verification; where needed they are
modelled from the spec (see the doc comments marked "Modelled from the
spec").
-/

/-- Modelled from the spec (§4.2, §2): `spline.c` is not under `src/`.
A spline is an ordered sequence of control points; only the control
points matter for serialization round-trips. -/
structure Spline where
  points : List (ℚ × ℚ)
deriving DecidableEq

/-- Modelled from the spec (§3): the fixed "smooth" template curve
`spline_template_smooth` lives in `spline.c`, which is not under `src/`;
its concrete control points are irrelevant to the claims, only its
identity as the default value. -/
def spline_template_smooth : Spline := ⟨[(0, 0), (1, 1)]⟩

/-- One row of the `GtkListStore` built in `animation_init`:
thumbnail (`GDK_TYPE_PIXBUF`, nullable), params (`G_TYPE_STRING`,
nullable, NUL-free byte content), duration (`G_TYPE_DOUBLE`), spline
(`TYPE_SPLINE`), and the self-referencing row token stored in the
`ANIMATION_MODEL_ITER` column (modelled as an abstract identity). -/
structure Keyframe where
  thumbnail : Option Nat
  params : Option (List Nat)
  duration : ℚ
  spline : Spline
  token : Nat
deriving DecidableEq

/-- Function `animation_keyframe_append_default`: a fresh row carries duration 5.0,
the smooth template spline, its own token, and unset params/thumbnail. -/
def defaultKeyframe (tok : Nat) : Keyframe :=
  ⟨none, none, 5, spline_template_smooth, tok⟩

/-- Function `animation_clear`: `gtk_list_store_clear` removes every row. -/
def animation_clear (_store : List Keyframe) : List Keyframe := []

/-- Function `animation_get_length`: walk the rows accumulating durations. -/
def animation_get_length : List Keyframe → ℚ
  | [] => 0
  | kf :: rest => kf.duration + animation_get_length rest

/-- Function `animation_keyframe_get_time`: walk the rows from the first,
stopping when the scanned row matches the given reference (the C code
compares `GtkTreeIter`s with `memcmp`), accumulating the durations of
the rows passed over. -/
def animation_keyframe_get_time : List Keyframe → Nat → ℚ
  | [], _ => 0
  | kf :: rest, tok =>
      if kf.token = tok then 0
      else kf.duration + animation_keyframe_get_time rest tok

/-- Structure `AnimationIter`: validity flag, current keyframe (an index into the
store), the `absolute_time` field (written only by
`animation_iter_get_first`), and `time_after_keyframe`. -/
structure AnimIter where
  valid : Bool
  keyframe : Nat
  absolute_time : ℚ
  time_after_keyframe : ℚ
deriving DecidableEq

/-- The row at index `i`, as read by `gtk_tree_model_get`; only ever
consulted at indices of live rows (`valid` iterators). -/
def kfAt (store : List Keyframe) (i : Nat) : Keyframe :=
  (store.get? i).getD (defaultKeyframe 0)

/-- The `ANIMATION_MODEL_DURATION` column of row `i`. -/
def durAt (store : List Keyframe) (i : Nat) : ℚ :=
  (kfAt store i).duration

/-- Function `animation_iter_get_first`: `gtk_tree_model_get_iter_first` succeeds
exactly when the store is non-empty and points at row 0. -/
def animation_iter_get_first (store : List Keyframe) : AnimIter :=
  ⟨!store.isEmpty, 0, 0, 0⟩

/-- The advance branch of the `seek_relative` loop: read the current
duration, move to the next row (`gtk_tree_model_iter_next` fails past
the last row, invalidating the iterator), subtract the duration. -/
def advanceIter (store : List Keyframe) (it : AnimIter) : AnimIter :=
  ⟨decide (it.keyframe + 1 < store.length), it.keyframe + 1,
   it.absolute_time, it.time_after_keyframe - durAt store it.keyframe⟩

/-- The `while (iter->valid)` normalization loop of
`animation_iter_seek_relative`, written with explicit fuel; the fuel
`2 * store.length + 2` used below is proved sufficient
(`seekLoop_settles`). -/
def seekLoop (store : List Keyframe) : Nat → AnimIter → AnimIter
  | 0, it => it
  | fuel + 1, it =>
    if it.valid = true then
      if durAt store it.keyframe ≤ it.time_after_keyframe then
        seekLoop store fuel (advanceIter store it)
      else if it.time_after_keyframe < 0 then
        seekLoop store fuel (animation_iter_get_first store)
      else it
    else it

/-- Function `animation_iter_seek_relative`: add the delta to
`time_after_keyframe`, then normalize. -/
def animation_iter_seek_relative (store : List Keyframe) (it : AnimIter)
    (delta : ℚ) : AnimIter :=
  seekLoop store (2 * store.length + 2)
    { it with time_after_keyframe := it.time_after_keyframe + delta }

/-- Function `animation_iter_seek`: seek to the beginning, then seek forward by
the absolute time. -/
def animation_iter_seek (store : List Keyframe) (t : ℚ) : AnimIter :=
  animation_iter_seek_relative store (animation_iter_get_first store) t

/-- The exit condition of the normalization loop: either the iterator is
invalid, or `0 ≤ time_after_keyframe < duration` of the current row. -/
def IsSettled (store : List Keyframe) (it : AnimIter) : Prop :=
  it.valid = false ∨
    (0 ≤ it.time_after_keyframe ∧
     it.time_after_keyframe < durAt store it.keyframe)

instance (store : List Keyframe) (it : AnimIter) :
    Decidable (IsSettled store it) := by
  unfold IsSettled; infer_instance

/-- The data `animation_iter_load_dejong` hands to the external
collaborators (`spline_solve_and_eval` of `spline.c` and
`de_jong_interpolate_linear` of `de-jong.c`, neither under `src/`): the
params of the current row and of the next row (or the current row again
when there is no next), the linear alpha `time_after_keyframe /
duration`, and the spline of the current row. -/
structure FrameData where
  pa : Option (List Nat)
  pb : Option (List Nat)
  alphaLinear : ℚ
  spline : Spline
deriving DecidableEq

/-- Function `animation_iter_load_dejong`, at the modelled boundary (its callers
require `iter->valid`). -/
def animation_iter_load_dejong (store : List Keyframe) (it : AnimIter) :
    FrameData :=
  let cur := kfAt store it.keyframe
  let nxt := (store.get? (it.keyframe + 1)).getD cur
  ⟨cur.params, nxt.params, it.time_after_keyframe / cur.duration,
   cur.spline⟩

/-- The two out-parameters `frame->a`, `frame->b` of
`animation_iter_read_frame`; `none` models a slot not yet written. -/
structure DeJongPair where
  a : Option FrameData
  b : Option FrameData
deriving DecidableEq

/-- Function `animation_iter_read_frame`: fail on an invalid iterator; otherwise
load the frame start, advance by `1/frame_rate`, and either fail (frame
end not loadable) or load the frame end and succeed.  Returns the flag
together with the mutated iterator and frame pair. -/
def animation_iter_read_frame (store : List Keyframe) (it : AnimIter)
    (frame : DeJongPair) (frame_rate : ℚ) :
    Bool × AnimIter × DeJongPair :=
  if it.valid = false then (false, it, frame)
  else
    let frame1 := { frame with a := some (animation_iter_load_dejong store it) }
    let it1 := animation_iter_seek_relative store it (1 / frame_rate)
    if it1.valid = false then (false, it1, frame1)
    else (true, it1,
      { frame1 with b := some (animation_iter_load_dejong store it1) })

/-- Iterator and frame pair after `n` calls to
`animation_iter_read_frame`, starting from the beginning of the
animation with both frame slots unwritten. -/
def frameCallState (store : List Keyframe) (rate : ℚ) :
    Nat → AnimIter × DeJongPair
  | 0 => (animation_iter_get_first store, ⟨none, none⟩)
  | n + 1 =>
    let st := frameCallState store rate n
    let r := animation_iter_read_frame store st.1 st.2 rate
    (r.2.1, r.2.2)

/-- The boolean returned by the `(n+1)`-st call to
`animation_iter_read_frame` (`n` starting at 0). -/
def frameCallResult (store : List Keyframe) (rate : ℚ) (n : Nat) : Bool :=
  (animation_iter_read_frame store (frameCallState store rate n).1
    (frameCallState store rate n).2 rate).1

/-! ## Chunked file container and codecs

`chunked-file.c` is not under `src/`; the container is modelled from the
spec (§4.1, §6): a file is a fixed signature followed by a sequence of
`(4-byte tag, length, payload)` chunks.  Bytes are modelled as naturals;
the opaque codecs (IEEE-754 double bytes, PNG, spline records) are
modelled as injective encodings of the right length. -/

/-- Packing helper `CHUNK_TYPE`: pack four ASCII bytes into one tag word.  Modelled
from the spec (§6): `chunked-file.h` is not under `src/`; the exact
packing only needs to be injective on ASCII quadruples. -/
def mkTag (a b c d : Nat) : Nat := ((a * 256 + b) * 256 + c) * 256 + d

/-- Tag constant `CHUNK_KEYFRAME_START`, `KfrS`. -/
def CHUNK_KEYFRAME_START : Nat := mkTag 75 102 114 83

/-- Tag constant `CHUNK_KEYFRAME_END`, `KfrE`. -/
def CHUNK_KEYFRAME_END : Nat := mkTag 75 102 114 69

/-- Tag constant `CHUNK_DE_JONG_PARAMS`, `djPR`. -/
def CHUNK_DE_JONG_PARAMS : Nat := mkTag 100 106 80 82

/-- Tag constant `CHUNK_THUMBNAIL`, `djTH`. -/
def CHUNK_THUMBNAIL : Nat := mkTag 100 106 84 72

/-- Tag constant `CHUNK_SPLINE`, `splC`. -/
def CHUNK_SPLINE : Nat := mkTag 115 112 108 67

/-- Tag constant `CHUNK_DURATION`, `dura`. -/
def CHUNK_DURATION : Nat := mkTag 100 117 114 97

/-- The six tags `animation_load_file` recognizes. -/
def recognizedTags : List Nat :=
  [CHUNK_KEYFRAME_START, CHUNK_KEYFRAME_END, CHUNK_DE_JONG_PARAMS,
   CHUNK_THUMBNAIL, CHUNK_SPLINE, CHUNK_DURATION]

/-- One `(type, length, payload)` record; the length is the payload's
list length. -/
structure Chunk where
  tag : Nat
  payload : List Nat
deriving DecidableEq

/-- Constant `FILE_SIGNATURE` (the bytes of the string "de Jong Explorer Animation\n\r\xFF\n"), as
byte values. -/
def fileSignature : List Nat :=
  [100, 101, 32, 74, 111, 110, 103, 32, 69, 120, 112, 108, 111, 114,
   101, 114, 32, 65, 110, 105, 109, 97, 116, 105, 111, 110, 10, 13,
   255, 10]

/-- A chunked file: the leading signature bytes and the chunk records
after them.  Modelled from the spec (§4.1): `chunked_file_read_chunk`
yields the chunks in file order until end-of-file. -/
structure AFile where
  sig : List Nat
  chunks : List Chunk
deriving DecidableEq

/-- Modelled from the spec (§6): the 8-byte IEEE-754 encoding of a
`gdouble` (the `dura` payload, written by `memcpy` and read back by
`*(gdouble*)data`) is an injective length-8 byte encoding; bytes here
are naturals, and the value is stored as sign, numerator and
denominator. -/
def encodeDouble (q : ℚ) : List Nat :=
  [if q.num < 0 then 1 else 0, q.num.natAbs, q.den, 0, 0, 0, 0, 0]

/-- Inverse of `encodeDouble` on length-8 payloads (any other shape
decodes to 0; `animation_load_file` only decodes length-8 payloads). -/
def decodeDouble : List Nat → ℚ
  | [s, n, d, _, _, _, _, _] => if s = 1 then -(mkRat n d) else mkRat n d
  | _ => 0

/-- Modelled from the spec (§6): the PNG codec is an opaque
encode/decode pair; images are opaque values and the encoding is
injective.  `decodePng` of anything else fails, like
`gdk_pixbuf_loader` on bytes that are not an image. -/
def encodePng (img : Nat) : List Nat := [137, img]

/-- Decode a PNG payload; `none` models `gdk_pixbuf_loader_get_pixbuf`
returning NULL. -/
def decodePng : List Nat → Option Nat
  | [137, img] => some img
  | _ => none

/-- C-string content: bytes up to the first NUL (`strlen`/`g_strdup`
semantics for the `G_TYPE_STRING` params column). -/
def takeCStr (bs : List Nat) : List Nat := bs.takeWhile (fun b => !(b == 0))

/-- Whether a keyframe's params bytes are free of NUL bytes (they always
are for params produced by `de_jong_save_string`). -/
def nulFree (kf : Keyframe) : Bool :=
  match kf.params with
  | some p => !(p.contains 0)
  | none => true

/-- Function `spline_serialize`, point list part.  Modelled from the spec (§4.2):
`spline.c` is not under `src/`; the serialized form is a sequence of
fixed-size records, one per control point, here two 8-byte doubles. -/
def serPoints : List (ℚ × ℚ) → List Nat
  | [] => []
  | p :: rest => encodeDouble p.1 ++ encodeDouble p.2 ++ serPoints rest

/-- Function `spline_serialize`. -/
def spline_serialize (s : Spline) : List Nat := serPoints s.points

/-- Parse consecutive 16-byte records into control points, ignoring a
trailing partial record. -/
def parsePoints : List Nat → List (ℚ × ℚ)
  | a0 :: a1 :: a2 :: a3 :: a4 :: a5 :: a6 :: a7 ::
    b0 :: b1 :: b2 :: b3 :: b4 :: b5 :: b6 :: b7 :: rest =>
      (decodeDouble [a0, a1, a2, a3, a4, a5, a6, a7],
       decodeDouble [b0, b1, b2, b3, b4, b5, b6, b7]) :: parsePoints rest
  | _ => []

/-- Function `spline_unserialize`. -/
def spline_unserialize (bs : List Nat) : Spline := ⟨parsePoints bs⟩

/-! ## Load -/

/-- The state of `animation_load_file`'s chunk loop: the store being
rebuilt and the row the local `iter` points at (`none` before the first
`KfrS` chunk, when `iter` is still uninitialized). -/
structure LoadState where
  store : List Keyframe
  cur : Option Nat
deriving DecidableEq

/-- Effect of `gtk_list_store_set` on the current row.  When no `KfrS` chunk has
appeared yet the C `iter` is uninitialized and the call is undefined
behaviour; modelled as a no-op, the spec's recoverable
`ProtocolViolation` reading (§9). -/
def setRow (st : LoadState) (f : Keyframe → Keyframe) : LoadState :=
  match st.cur with
  | some i => { st with store := st.store.set i (f (kfAt st.store i)) }
  | none => st

/-- One iteration of `animation_load_file`'s `switch` on a chunk. -/
def applyChunk (st : LoadState) (c : Chunk) : LoadState :=
  if c.tag = CHUNK_KEYFRAME_START then
    { store := st.store ++ [defaultKeyframe st.store.length],
      cur := some st.store.length }
  else if c.tag = CHUNK_KEYFRAME_END then st
  else if c.tag = CHUNK_DE_JONG_PARAMS then
    setRow st (fun kf => { kf with params := some (takeCStr c.payload) })
  else if c.tag = CHUNK_THUMBNAIL then
    setRow st (fun kf => { kf with thumbnail := decodePng c.payload })
  else if c.tag = CHUNK_DURATION then
    if c.payload.length = 8 then
      setRow st (fun kf => { kf with duration := decodeDouble c.payload })
    else st
  else if c.tag = CHUNK_SPLINE then
    setRow st (fun kf => { kf with spline := spline_unserialize c.payload })
  else st

/-- Function `animation_load_file`: verify the signature (`g_return_if_fail`
leaves the store untouched on mismatch), clear the store, then stream
the chunks. -/
def animation_load_file (store : List Keyframe) (f : AFile) :
    List Keyframe :=
  if f.sig = fileSignature then
    (f.chunks.foldl applyChunk ⟨animation_clear store, none⟩).store
  else store

/-! ## Save -/

/-- The chunk block `animation_save_file` writes for one row: `KfrS`,
then params (only if present, `strlen` bytes), thumbnail (only if
present, PNG-encoded), duration (always, 8 bytes), spline (present by
invariant), then `KfrE`. -/
def keyframe_chunks (kf : Keyframe) : List Chunk :=
  ⟨CHUNK_KEYFRAME_START, []⟩ ::
    ((match kf.params with
      | some p => [(⟨CHUNK_DE_JONG_PARAMS, takeCStr p⟩ : Chunk)]
      | none => []) ++
     (match kf.thumbnail with
      | some t => [(⟨CHUNK_THUMBNAIL, encodePng t⟩ : Chunk)]
      | none => []) ++
     [⟨CHUNK_DURATION, encodeDouble kf.duration⟩,
      ⟨CHUNK_SPLINE, spline_serialize kf.spline⟩,
      ⟨CHUNK_KEYFRAME_END, []⟩])

/-- The chunk stream for the whole store, row blocks in order. -/
def saveChunks : List Keyframe → List Chunk
  | [] => []
  | kf :: rest => keyframe_chunks kf ++ saveChunks rest

/-- Function `animation_save_file`: write the signature, then each row's block. -/
def animation_save_file (store : List Keyframe) : AFile :=
  ⟨fileSignature, saveChunks store⟩

/-- The row `animation_load_file` rebuilds from the block
`animation_save_file` wrote for `kf`, when the rebuilt row gets token
`tok`: thumbnail and spline round-trip exactly, params round-trip up to
`strlen` truncation, the duration is bit-exact. -/
def reloadKf (tok : Nat) (kf : Keyframe) : Keyframe :=
  ⟨kf.thumbnail, kf.params.map takeCStr, kf.duration, kf.spline, tok⟩

/-- Map of `reloadKf` across a store, tokens counting up from `n`. -/
def reloadList (n : Nat) : List Keyframe → List Keyframe
  | [] => []
  | kf :: rest => reloadKf n kf :: reloadList (n + 1) rest

/-- The thumbnail-presence observation of a row. -/
def thumbPresent (kf : Keyframe) : Bool := kf.thumbnail.isSome

/-! ## Helper lemmas -/

theorem get?_append_len {α : Type} (l : List α) (x : α) :
    (l ++ [x]).get? l.length = some x := by
  induction l with
  | nil => rfl
  | cons a l ih => simp [ih]

theorem set_append_len {α : Type} (l : List α) (x y : α) :
    (l ++ [x]).set l.length y = l ++ [y] := by
  induction l with
  | nil => rfl
  | cons a l ih => simp [List.set, ih]

theorem get?_set_self {α : Type} (l : List α) (i : Nat) (x : α)
    (h : i < l.length) : (l.set i x).get? i = some x := by
  induction l generalizing i with
  | nil => simp at h
  | cons a l ih =>
    cases i with
    | zero => rfl
    | succ i => simpa [List.set] using ih i (by simpa using h)

theorem get?_eq_some_mem {α : Type} (l : List α) (k : Nat)
    (h : k < l.length) : ∃ x, l.get? k = some x ∧ x ∈ l := by
  induction l generalizing k with
  | nil => simp at h
  | cons a l ih =>
    cases k with
    | zero => exact ⟨a, rfl, List.mem_cons_self a l⟩
    | succ k =>
      obtain ⟨x, hx, hm⟩ := ih k (by simpa using h)
      exact ⟨x, hx, List.mem_cons_of_mem a hm⟩

theorem mem_of_mem_take {α : Type} (l : List α) (k : Nat) (x : α)
    (h : x ∈ l.take k) : x ∈ l := by
  induction l generalizing k with
  | nil => simp at h
  | cons a l ih =>
    cases k with
    | zero => simp at h
    | succ k =>
      rcases (List.mem_cons).1 (by simpa using h) with h' | h'
      · exact h' ▸ List.mem_cons_self a l
      · exact List.mem_cons_of_mem a (ih k h')

theorem encodeDouble_length (q : ℚ) : (encodeDouble q).length = 8 := rfl

theorem decode_encodeDouble (q : ℚ) : decodeDouble (encodeDouble q) = q := by
  rcases lt_or_le q.num 0 with h | h
  · have habs : (q.num.natAbs : ℤ) = -q.num := by
      have h2 := Int.natAbs_of_nonneg (a := -q.num) (by omega)
      simpa [Int.natAbs_neg] using h2
    simp only [encodeDouble, decodeDouble, if_pos h]
    rw [if_pos trivial, habs, ← Rat.neg_mkRat, neg_neg, Rat.mkRat_self]
  · have habs : (q.num.natAbs : ℤ) = q.num := Int.natAbs_of_nonneg h
    have hne : ¬ q.num < 0 := not_lt.2 h
    simp only [encodeDouble, decodeDouble, if_neg hne]
    rw [if_neg (by decide : ¬ (0 : Nat) = 1), habs, Rat.mkRat_self]

theorem decodePng_encodePng (i : Nat) : decodePng (encodePng i) = some i := rfl

theorem takeCStr_cons_of_ne (b : Nat) (l : List Nat) (hb : ¬ b = 0) :
    takeCStr (b :: l) = b :: takeCStr l := by
  simp [takeCStr, List.takeWhile_cons, hb]

theorem takeCStr_of_contains (p : List Nat) (h : p.contains 0 = false) :
    takeCStr p = p := by
  induction p with
  | nil => rfl
  | cons b p ih =>
    simp only [List.contains_cons, Bool.or_eq_false_iff] at h
    have hb : ¬ b = 0 := by
      intro hb0
      subst hb0
      simpa using h.1
    rw [takeCStr_cons_of_ne b p hb, ih h.2]

theorem takeCStr_idem (p : List Nat) : takeCStr (takeCStr p) = takeCStr p := by
  induction p with
  | nil => rfl
  | cons b p ih =>
    by_cases hb : b = 0
    · simp [takeCStr, List.takeWhile_cons, hb]
    · rw [takeCStr_cons_of_ne b p hb, takeCStr_cons_of_ne b (takeCStr p) hb, ih]

theorem parse_serPoints (pts : List (ℚ × ℚ)) :
    parsePoints (serPoints pts) = pts := by
  induction pts with
  | nil => rfl
  | cons p rest ih =>
    obtain ⟨x, y⟩ := p
    simp only [serPoints, encodeDouble, List.cons_append, List.nil_append,
      parsePoints]
    rw [show ([if x.num < 0 then 1 else 0, x.num.natAbs, x.den,
        0, 0, 0, 0, 0] : List Nat) = encodeDouble x from rfl,
      show ([if y.num < 0 then 1 else 0, y.num.natAbs, y.den,
        0, 0, 0, 0, 0] : List Nat) = encodeDouble y from rfl,
      decode_encodeDouble, decode_encodeDouble]
    simpa using ih

theorem unserialize_serialize (s : Spline) :
    spline_unserialize (spline_serialize s) = s := by
  cases s with
  | mk pts => simp [spline_unserialize, spline_serialize, parse_serPoints]

theorem seekLoop_invalid (store : List Keyframe) (fuel : Nat)
    (it : AnimIter) (h : it.valid = false) : seekLoop store fuel it = it := by
  cases fuel with
  | zero => rfl
  | succ f => simp [seekLoop, h]

theorem seekLoop_settled_valid (store : List Keyframe) (fuel : Nat)
    (it : AnimIter) (h0 : 0 ≤ it.time_after_keyframe)
    (h1 : it.time_after_keyframe < durAt store it.keyframe) :
    seekLoop store fuel it = it := by
  cases fuel with
  | zero => rfl
  | succ f => simp [seekLoop, not_le.2 h1, not_lt.2 h0]

theorem seekLoop_step_advance (store : List Keyframe) (f : Nat)
    (it : AnimIter) (hv : it.valid = true)
    (h : durAt store it.keyframe ≤ it.time_after_keyframe) :
    seekLoop store (f + 1) it = seekLoop store f (advanceIter store it) := by
  simp [seekLoop, hv, h]

theorem seekLoop_step_reset (store : List Keyframe) (f : Nat)
    (it : AnimIter) (hv : it.valid = true)
    (hadv : ¬ durAt store it.keyframe ≤ it.time_after_keyframe)
    (hneg : it.time_after_keyframe < 0) :
    seekLoop store (f + 1) it =
      seekLoop store f (animation_iter_get_first store) := by
  simp [seekLoop, hv, hadv, hneg]

/-- Termination measure for the normalization loop: a reset can fire at
most once (it zeroes `time_after_keyframe`), after which only forward
advances remain. -/
def seekMeasure (store : List Keyframe) (it : AnimIter) : Nat :=
  if it.valid = true then
    (if it.time_after_keyframe < 0 then store.length + 1 else 0) +
      (store.length - it.keyframe)
  else 0

theorem seekMeasure_le (store : List Keyframe) (it : AnimIter) :
    seekMeasure store it ≤ 2 * store.length + 1 := by
  unfold seekMeasure
  split
  · split <;> omega
  · omega

theorem seekLoop_settles (store : List Keyframe) : ∀ (fuel : Nat)
    (it : AnimIter), (it.valid = true → it.keyframe < store.length) →
    seekMeasure store it < fuel →
    IsSettled store (seekLoop store fuel it) := by
  intro fuel
  induction fuel with
  | zero => exact fun it _ hm => absurd hm (Nat.not_lt_zero _)
  | succ f ih =>
    intro it hwf hm
    by_cases hv : it.valid = true
    · have hk : it.keyframe < store.length := hwf hv
      by_cases hadv : durAt store it.keyframe ≤ it.time_after_keyframe
      · rw [seekLoop_step_advance store f it hv hadv]
        apply ih
        · intro hv'
          have : decide (it.keyframe + 1 < store.length) = true := hv'
          simpa [advanceIter] using of_decide_eq_true this
        · have hnn :
              ¬ (it.time_after_keyframe - durAt store it.keyframe < 0) :=
            not_lt.2 (sub_nonneg.2 hadv)
          have hmu : seekMeasure store it < f + 1 := hm
          have h1 : store.length - it.keyframe ≤ seekMeasure store it := by
            unfold seekMeasure
            rw [if_pos hv]
            split <;> omega
          have h2 : seekMeasure store (advanceIter store it) ≤
              store.length - (it.keyframe + 1) := by
            unfold seekMeasure
            simp only [advanceIter]
            rw [if_neg hnn]
            split <;> omega
          omega
      · by_cases hneg : it.time_after_keyframe < 0
        · rw [seekLoop_step_reset store f it hv hadv hneg]
          apply ih
          · intro hv'
            simp only [animation_iter_get_first] at hv' ⊢
            cases store with
            | nil => simp at hv'
            | cons a l => simp
          · have hmu : seekMeasure store it < f + 1 := hm
            unfold seekMeasure at hmu ⊢
            simp only [hv, if_pos, hneg] at hmu
            simp only [animation_iter_get_first]
            split
            · have : ¬ ((0 : ℚ) < 0) := by norm_num
              rw [if_neg this]
              omega
            · omega
        · rw [seekLoop_settled_valid store (f + 1) it (not_lt.1 hneg)
            (not_le.1 hadv)]
          exact Or.inr ⟨not_lt.1 hneg, not_le.1 hadv⟩
    · rw [seekLoop_invalid store (f + 1) it (by simpa using hv)]
      exact Or.inl (by simpa using hv)

theorem applyChunk_start (st : LoadState) (p : List Nat) :
    applyChunk st ⟨CHUNK_KEYFRAME_START, p⟩ =
      ⟨st.store ++ [defaultKeyframe st.store.length],
       some st.store.length⟩ := by
  simp [applyChunk]

theorem applyChunk_end (st : LoadState) (p : List Nat) :
    applyChunk st ⟨CHUNK_KEYFRAME_END, p⟩ = st := by
  simp [applyChunk, CHUNK_KEYFRAME_END, CHUNK_KEYFRAME_START, mkTag]

theorem applyChunk_params (st : LoadState) (p : List Nat) :
    applyChunk st ⟨CHUNK_DE_JONG_PARAMS, p⟩ =
      setRow st (fun kf => { kf with params := some (takeCStr p) }) := by
  simp [applyChunk, CHUNK_DE_JONG_PARAMS, CHUNK_KEYFRAME_START,
    CHUNK_KEYFRAME_END, mkTag]

theorem applyChunk_thumb (st : LoadState) (p : List Nat) :
    applyChunk st ⟨CHUNK_THUMBNAIL, p⟩ =
      setRow st (fun kf => { kf with thumbnail := decodePng p }) := by
  simp [applyChunk, CHUNK_THUMBNAIL, CHUNK_KEYFRAME_START,
    CHUNK_KEYFRAME_END, CHUNK_DE_JONG_PARAMS, mkTag]

theorem applyChunk_dura (st : LoadState) (p : List Nat) :
    applyChunk st ⟨CHUNK_DURATION, p⟩ =
      if p.length = 8 then
        setRow st (fun kf => { kf with duration := decodeDouble p })
      else st := by
  simp [applyChunk, CHUNK_DURATION, CHUNK_KEYFRAME_START,
    CHUNK_KEYFRAME_END, CHUNK_DE_JONG_PARAMS, CHUNK_THUMBNAIL, mkTag]

theorem applyChunk_spline (st : LoadState) (p : List Nat) :
    applyChunk st ⟨CHUNK_SPLINE, p⟩ =
      setRow st (fun kf => { kf with spline := spline_unserialize p }) := by
  simp [applyChunk, CHUNK_SPLINE, CHUNK_KEYFRAME_START,
    CHUNK_KEYFRAME_END, CHUNK_DE_JONG_PARAMS, CHUNK_THUMBNAIL,
    CHUNK_DURATION, mkTag]

theorem applyChunk_unknown (st : LoadState) (c : Chunk)
    (h : c.tag ∉ recognizedTags) : applyChunk st c = st := by
  have h' := h
  simp only [recognizedTags, List.mem_cons, List.not_mem_nil, or_false,
    not_or] at h'
  obtain ⟨h1, h2, h3, h4, h5, h6⟩ := h'
  simp [applyChunk, h1, h2, h3, h4, h5, h6]

/-! ## Claims -/

/-- Claim C4: for a 2-keyframe animation with durations [5.0, 5.0],
`seek_absolute(0)` yields a valid iterator at keyframe 0 with
`time_after_keyframe` 0; `seek_absolute(5.0)` yields keyframe 1 with
`time_after_keyframe` 0; `seek_absolute(2.5)` yields keyframe 0 with
`time_after_keyframe` 2.5, i.e. linear alpha 0.5 before spline
application. -/
theorem C4_seek_absolute_two_keyframes :
    animation_iter_seek [defaultKeyframe 0, defaultKeyframe 1] 0 =
      ⟨true, 0, 0, 0⟩ ∧
    animation_iter_seek [defaultKeyframe 0, defaultKeyframe 1] 5 =
      ⟨true, 1, 0, 0⟩ ∧
    animation_iter_seek [defaultKeyframe 0, defaultKeyframe 1] (5 / 2) =
      ⟨true, 0, 0, 5 / 2⟩ ∧
    (animation_iter_load_dejong [defaultKeyframe 0, defaultKeyframe 1]
      (animation_iter_seek [defaultKeyframe 0, defaultKeyframe 1]
        (5 / 2))).alphaLinear = 1 / 2 := by
  with_unfolding_all decide

/-- Claim C5: for every finite keyframe store (zero-duration keyframes
included) and every delta, the normalization loop of `seek_relative`
terminates: within the fuel bound `2·size + 2` it reaches a state
satisfying its own exit condition (`IsSettled`), for any well-formed
iterator (a valid iterator points at a live row). -/
theorem C5_seek_relative_terminates (store : List Keyframe)
    (it : AnimIter) (delta : ℚ)
    (hwf : it.valid = true → it.keyframe < store.length) :
    IsSettled store (animation_iter_seek_relative store it delta) := by
  unfold animation_iter_seek_relative
  apply seekLoop_settles
  · intro hv
    exact hwf hv
  · exact lt_of_le_of_lt (seekMeasure_le store _) (by omega)

/-- Witness for C5 at a store with a zero-duration keyframe and a
backward delta. -/
theorem C5_witness :
    (((⟨true, 0, 0, 0⟩ : AnimIter).valid = true →
      (⟨true, 0, 0, 0⟩ : AnimIter).keyframe <
        ([⟨none, none, 0, spline_template_smooth, 0⟩,
          defaultKeyframe 1] : List Keyframe).length) ∧
     IsSettled [⟨none, none, 0, spline_template_smooth, 0⟩,
        defaultKeyframe 1]
       (animation_iter_seek_relative
         [⟨none, none, 0, spline_template_smooth, 0⟩, defaultKeyframe 1]
         ⟨true, 0, 0, 0⟩ (-3))) :=
  ⟨by with_unfolding_all decide,
   C5_seek_relative_terminates _ _ _ (by with_unfolding_all decide)⟩

/-- Claim C9: `read_frame` is not atomic on end-of-animation: if the
iterator is valid on entry but invalid after advancing by
`1/frame_rate`, the call returns FALSE with the start state already
written into the pair's first slot, the second slot untouched, and the
iterator left mutated (advanced, invalid), not restored. -/
theorem C9_read_frame_not_atomic (store : List Keyframe) (it : AnimIter)
    (frame : DeJongPair) (rate : ℚ) (hv : it.valid = true)
    (h2 : (animation_iter_seek_relative store it (1 / rate)).valid = false) :
    animation_iter_read_frame store it frame rate =
      (false, animation_iter_seek_relative store it (1 / rate),
        { frame with a := some (animation_iter_load_dejong store it) }) ∧
    (animation_iter_read_frame store it frame rate).2.1.valid ≠ it.valid ∧
    (animation_iter_read_frame store it frame rate).2.2.b = frame.b := by
  have hmain : animation_iter_read_frame store it frame rate =
      (false, animation_iter_seek_relative store it (1 / rate),
        { frame with a := some (animation_iter_load_dejong store it) }) := by
    have h2' : (animation_iter_seek_relative store it rate⁻¹).valid = false := by
      rw [← one_div]
      exact h2
    simp [animation_iter_read_frame, hv, h2, h2']
  refine ⟨hmain, ?_, ?_⟩
  · rw [hmain, hv, h2]
    simp
  · rw [hmain]

/-- Witness for C9: a single 3-second keyframe, the iterator 2.75
seconds in, frame rate 2: advancing lands at 3.25 ≥ 3.0 and
invalidates. -/
theorem C9_witness :
    ((⟨true, 0, 0, 11 / 4⟩ : AnimIter).valid = true ∧
     (animation_iter_seek_relative
       [⟨none, none, 3, spline_template_smooth, 0⟩]
       ⟨true, 0, 0, 11 / 4⟩ (1 / 2)).valid = false ∧
     animation_iter_read_frame [⟨none, none, 3, spline_template_smooth, 0⟩]
       ⟨true, 0, 0, 11 / 4⟩ ⟨none, none⟩ 2 =
       (false,
        animation_iter_seek_relative
          [⟨none, none, 3, spline_template_smooth, 0⟩]
          ⟨true, 0, 0, 11 / 4⟩ (1 / 2),
        ⟨some (animation_iter_load_dejong
          [⟨none, none, 3, spline_template_smooth, 0⟩]
          ⟨true, 0, 0, 11 / 4⟩), none⟩)) := by
  refine ⟨rfl, by with_unfolding_all decide, ?_⟩
  exact (C9_read_frame_not_atomic
    [⟨none, none, 3, spline_template_smooth, 0⟩] ⟨true, 0, 0, 11 / 4⟩
    ⟨none, none⟩ 2 rfl (by with_unfolding_all decide)).1

/-- Claim C10: a keyframe reference matching no row of the store (for
example a stale reference after `clear`) makes
`animation_keyframe_get_time` return the sum of all durations — the
animation's total length — because the scan runs off the end. -/
theorem C10_stale_ref_returns_total_length (store : List Keyframe)
    (tok : Nat) (h : ∀ kf ∈ store, kf.token ≠ tok) :
    animation_keyframe_get_time store tok = animation_get_length store := by
  induction store with
  | nil => rfl
  | cons kf rest ih =>
    have hne : kf.token ≠ tok := h kf (List.mem_cons_self kf rest)
    rw [animation_keyframe_get_time, animation_get_length, if_neg hne,
      ih (fun x hx => h x (List.mem_cons_of_mem kf hx))]

/-- Witness for C10: a two-row store and a token matching neither row. -/
theorem C10_witness :
    ((∀ kf ∈ ([defaultKeyframe 0, defaultKeyframe 1] : List Keyframe),
        kf.token ≠ 7) ∧
     animation_keyframe_get_time [defaultKeyframe 0, defaultKeyframe 1] 7 =
       animation_get_length [defaultKeyframe 0, defaultKeyframe 1]) :=
  ⟨by with_unfolding_all decide,
   C10_stale_ref_returns_total_length _ 7 (by with_unfolding_all decide)⟩

/-- Counterexample to claim C1: on the 1-keyframe, duration-3.0
animation at frame_rate 2 the first six calls to `read_frame` are NOT
all successful — the sixth call advances `time_after_keyframe` from 2.5
to 3.0, which reaches the keyframe's duration, invalidates the iterator
and returns FALSE. -/
theorem C1_counterexample :
    ¬ ((List.range 6).map
        (frameCallResult [⟨none, none, 3, spline_template_smooth, 0⟩] 2) =
      List.replicate 6 true) := by
  with_unfolding_all decide

/-- Claim C1 as amended: on a 1-keyframe animation of duration 3.0 at
frame_rate 2, exactly 5 calls to `read_frame` return successfully (with
both endpoint slots filled) before the sixth call returns
end-of-animation. -/
theorem C1_amended_five_frames :
    (List.range 6).map
        (frameCallResult [⟨none, none, 3, spline_template_smooth, 0⟩] 2) =
      [true, true, true, true, true, false] ∧
    ((List.range 5).all fun n =>
      ((frameCallState [⟨none, none, 3, spline_template_smooth, 0⟩] 2
          (n + 1)).2.a.isSome &&
       (frameCallState [⟨none, none, 3, spline_template_smooth, 0⟩] 2
          (n + 1)).2.b.isSome)) = true := by
  with_unfolding_all decide

/-- Claim C6: if the file's leading bytes do not match the fixed
signature, `animation_load_file` returns without touching the keyframe
store at all — the `g_return_if_fail` fires before `animation_clear`. -/
theorem C6_bad_signature_preserves_store (store : List Keyframe)
    (f : AFile) (h : f.sig ≠ fileSignature) :
    animation_load_file store f = store := by
  unfold animation_load_file
  rw [if_neg h]

/-- Witness for C6: a file with a wrong signature but a well-formed
chunk stream leaves a non-empty store exactly as it was. -/
theorem C6_witness :
    ((AFile.mk [1, 2, 3] [⟨CHUNK_KEYFRAME_START, []⟩]).sig ≠
        fileSignature ∧
     animation_load_file [defaultKeyframe 0]
        ⟨[1, 2, 3], [⟨CHUNK_KEYFRAME_START, []⟩]⟩ =
       [defaultKeyframe 0]) :=
  ⟨by with_unfolding_all decide,
   C6_bad_signature_preserves_store _ _ (by with_unfolding_all decide)⟩

/-- Claim C7: during load, a `dura` chunk whose payload is not exactly
8 bytes is non-fatal: the load state is unchanged (the current
keyframe's duration stays at the append-time default 5.0) and the
remaining chunks are processed as before; a `dura` chunk with an exactly
8-byte payload sets the current keyframe's duration to the decoded
value. -/
theorem C7_duration_chunk_length_check (st : LoadState) (pbad p8 : List Nat)
    (cs : List Chunk) (i : Nat) (hbad : pbad.length ≠ 8)
    (h8 : p8.length = 8) (hcur : st.cur = some i)
    (hi : i < st.store.length) :
    applyChunk st ⟨CHUNK_DURATION, pbad⟩ = st ∧
    List.foldl applyChunk st (⟨CHUNK_DURATION, pbad⟩ :: cs) =
      List.foldl applyChunk st cs ∧
    ((applyChunk st ⟨CHUNK_DURATION, p8⟩).store.get? i).map
        Keyframe.duration = some (decodeDouble p8) ∧
    (defaultKeyframe i).duration = 5 := by
  have hskip : applyChunk st ⟨CHUNK_DURATION, pbad⟩ = st := by
    rw [applyChunk_dura, if_neg hbad]
  refine ⟨hskip, ?_, ?_, rfl⟩
  · rw [List.foldl_cons, hskip]
  · rw [applyChunk_dura, if_pos h8]
    unfold setRow
    rw [hcur]
    simp only
    rw [get?_set_self _ _ _ hi]
    rfl

/-- Witness for C7: a store with one freshly appended row, a 3-byte
payload (skipped, duration stays 5) and an 8-byte payload encoding 7/2
(applied). -/
theorem C7_witness :
    (([1, 2, 3] : List Nat).length ≠ 8 ∧
     (encodeDouble (7 / 2)).length = 8 ∧
     (LoadState.mk [defaultKeyframe 0] (some 0)).cur = some 0 ∧
     0 < (LoadState.mk [defaultKeyframe 0] (some 0)).store.length ∧
     (applyChunk ⟨[defaultKeyframe 0], some 0⟩ ⟨CHUNK_DURATION, [1, 2, 3]⟩ =
        ⟨[defaultKeyframe 0], some 0⟩ ∧
      List.foldl applyChunk ⟨[defaultKeyframe 0], some 0⟩
          [⟨CHUNK_DURATION, [1, 2, 3]⟩, ⟨CHUNK_KEYFRAME_END, []⟩] =
        List.foldl applyChunk ⟨[defaultKeyframe 0], some 0⟩
          [⟨CHUNK_KEYFRAME_END, []⟩] ∧
      ((applyChunk ⟨[defaultKeyframe 0], some 0⟩
          ⟨CHUNK_DURATION, encodeDouble (7 / 2)⟩).store.get? 0).map
          Keyframe.duration = some (decodeDouble (encodeDouble (7 / 2))) ∧
      (defaultKeyframe 0).duration = 5)) :=
  ⟨by with_unfolding_all decide, rfl, rfl, by with_unfolding_all decide,
   C7_duration_chunk_length_check ⟨[defaultKeyframe 0], some 0⟩ [1, 2, 3]
     (encodeDouble (7 / 2)) [⟨CHUNK_KEYFRAME_END, []⟩] 0
     (by with_unfolding_all decide) rfl rfl
     (by with_unfolding_all decide)⟩

/-- Claim C8: an unrecognized chunk tag does not abort
`animation_load_file`; the load of a file containing it produces exactly
the store produced by the same file without it — every recognized chunk
after it is still applied. -/
theorem C8_unknown_chunk_skipped (store : List Keyframe)
    (cs1 cs2 : List Chunk) (tag : Nat) (payload : List Nat)
    (h : tag ∉ recognizedTags) :
    animation_load_file store ⟨fileSignature, cs1 ++ ⟨tag, payload⟩ :: cs2⟩ =
      animation_load_file store ⟨fileSignature, cs1 ++ cs2⟩ := by
  unfold animation_load_file
  rw [if_pos rfl, if_pos rfl, List.foldl_append, List.foldl_append,
    List.foldl_cons,
    applyChunk_unknown (List.foldl applyChunk _ cs1) ⟨tag, payload⟩ h]

/-- Witness for C8: tag 999 is not recognized; a file with it between a
`KfrS` and a `dura` chunk loads like the file without it. -/
theorem C8_witness :
    ((999 : Nat) ∉ recognizedTags ∧
     animation_load_file []
        ⟨fileSignature,
         [⟨CHUNK_KEYFRAME_START, []⟩] ++ ⟨999, [1, 2]⟩ ::
           [⟨CHUNK_DURATION, encodeDouble 2⟩]⟩ =
       animation_load_file []
        ⟨fileSignature,
         [⟨CHUNK_KEYFRAME_START, []⟩] ++ [⟨CHUNK_DURATION, encodeDouble 2⟩]⟩) :=
  ⟨by with_unfolding_all decide,
   C8_unknown_chunk_skipped [] [⟨CHUNK_KEYFRAME_START, []⟩]
     [⟨CHUNK_DURATION, encodeDouble 2⟩] 999 [1, 2]
     (by with_unfolding_all decide)⟩

theorem kfAt_append_len (l : List Keyframe) (x : Keyframe) :
    kfAt (l ++ [x]) l.length = x := by
  unfold kfAt
  rw [get?_append_len]
  rfl

theorem setRow_fresh (l : List Keyframe) (x : Keyframe)
    (f : Keyframe → Keyframe) :
    setRow ⟨l ++ [x], some l.length⟩ f = ⟨l ++ [f x], some l.length⟩ := by
  unfold setRow
  simp only
  rw [kfAt_append_len, set_append_len]

theorem foldl_keyframe_chunks (kf : Keyframe) (st : LoadState)
    (cs : List Chunk) :
    List.foldl applyChunk st (keyframe_chunks kf ++ cs) =
      List.foldl applyChunk
        ⟨st.store ++ [reloadKf st.store.length kf], some st.store.length⟩
        cs := by
  obtain ⟨th, pr, du, sp, tok⟩ := kf
  cases th <;> cases pr <;>
    simp [keyframe_chunks, reloadKf, applyChunk_start, applyChunk_params,
      applyChunk_thumb, applyChunk_dura, applyChunk_spline, applyChunk_end,
      setRow_fresh, defaultKeyframe, encodeDouble_length,
      decode_encodeDouble, decodePng_encodePng, unserialize_serialize,
      takeCStr_idem]

theorem foldl_saveChunks (store : List Keyframe) : ∀ (st : LoadState),
    (List.foldl applyChunk st (saveChunks store)).store =
      st.store ++ reloadList st.store.length store := by
  induction store with
  | nil => intro st; simp [saveChunks, reloadList]
  | cons kf rest ih =>
    intro st
    rw [saveChunks, foldl_keyframe_chunks, ih]
    simp [reloadList]

theorem reloadList_length (store : List Keyframe) : ∀ n : Nat,
    (reloadList n store).length = store.length := by
  induction store with
  | nil => intro n; rfl
  | cons kf rest ih => intro n; simp [reloadList, ih]

theorem reloadList_map_duration (store : List Keyframe) : ∀ n : Nat,
    (reloadList n store).map Keyframe.duration =
      store.map Keyframe.duration := by
  induction store with
  | nil => intro n; rfl
  | cons kf rest ih => intro n; simp [reloadList, reloadKf, ih]

theorem reloadList_map_spline (store : List Keyframe) : ∀ n : Nat,
    (reloadList n store).map Keyframe.spline =
      store.map Keyframe.spline := by
  induction store with
  | nil => intro n; rfl
  | cons kf rest ih => intro n; simp [reloadList, reloadKf, ih]

theorem reloadList_map_thumb (store : List Keyframe) : ∀ n : Nat,
    (reloadList n store).map thumbPresent = store.map thumbPresent := by
  induction store with
  | nil => intro n; rfl
  | cons kf rest ih => intro n; simp [reloadList, reloadKf, thumbPresent, ih]

theorem reloadList_map_params (store : List Keyframe)
    (h : ∀ kf ∈ store, nulFree kf = true) : ∀ n : Nat,
    (reloadList n store).map Keyframe.params =
      store.map Keyframe.params := by
  induction store with
  | nil => intro n; rfl
  | cons kf rest ih =>
    intro n
    have hkf : kf.params.map takeCStr = kf.params := by
      have hn := h kf (List.mem_cons_self kf rest)
      unfold nulFree at hn
      cases hp : kf.params with
      | none => rfl
      | some p =>
        rw [hp] at hn
        have hc : p.contains 0 = false := by simpa using hn
        simp [takeCStr_of_contains p hc]
    simp only [reloadList, reloadKf, List.map_cons, hkf]
    rw [ih (fun x hx => h x (List.mem_cons_of_mem kf hx))]

/-- Claim C2: for every Animation (arbitrary durations, NUL-free params,
arbitrary splines), saving to a file and loading it back yields a store
with the same keyframe count, bit-exact durations, identical params
bytes, exactly round-tripped splines, and thumbnails present (decodable)
exactly where they were present. -/
theorem C2_save_load_roundtrip (store prev : List Keyframe)
    (h : ∀ kf ∈ store, nulFree kf = true) :
    (animation_load_file prev (animation_save_file store)).length =
      store.length ∧
    (animation_load_file prev (animation_save_file store)).map
        Keyframe.duration = store.map Keyframe.duration ∧
    (animation_load_file prev (animation_save_file store)).map
        Keyframe.params = store.map Keyframe.params ∧
    (animation_load_file prev (animation_save_file store)).map
        Keyframe.spline = store.map Keyframe.spline ∧
    (animation_load_file prev (animation_save_file store)).map
        thumbPresent = store.map thumbPresent := by
  have hload : animation_load_file prev (animation_save_file store) =
      reloadList 0 store := by
    unfold animation_load_file animation_save_file
    rw [if_pos rfl]
    have hfold := foldl_saveChunks store ⟨animation_clear prev, none⟩
    simpa [animation_clear] using hfold
  rw [hload]
  exact ⟨reloadList_length store 0, reloadList_map_duration store 0,
    reloadList_map_params store h 0, reloadList_map_spline store 0,
    reloadList_map_thumb store 0⟩

/-- Witness for C2: a two-keyframe store, one row fully populated
(params "hi", a thumbnail, duration 3/2, a one-point spline), one row
bare with duration 0. -/
theorem C2_witness :
    ((∀ kf ∈ ([⟨some 7, some [104, 105], 3 / 2, ⟨[(1 / 2, 1 / 3)]⟩, 4⟩,
        ⟨none, none, 0, spline_template_smooth, 9⟩] : List Keyframe),
        nulFree kf = true) ∧
     ((animation_load_file [defaultKeyframe 0]
        (animation_save_file
          [⟨some 7, some [104, 105], 3 / 2, ⟨[(1 / 2, 1 / 3)]⟩, 4⟩,
           ⟨none, none, 0, spline_template_smooth, 9⟩])).length = 2 ∧
      (animation_load_file [defaultKeyframe 0]
        (animation_save_file
          [⟨some 7, some [104, 105], 3 / 2, ⟨[(1 / 2, 1 / 3)]⟩, 4⟩,
           ⟨none, none, 0, spline_template_smooth, 9⟩])).map
          Keyframe.duration = [3 / 2, 0] ∧
      (animation_load_file [defaultKeyframe 0]
        (animation_save_file
          [⟨some 7, some [104, 105], 3 / 2, ⟨[(1 / 2, 1 / 3)]⟩, 4⟩,
           ⟨none, none, 0, spline_template_smooth, 9⟩])).map
          Keyframe.params = [some [104, 105], none] ∧
      (animation_load_file [defaultKeyframe 0]
        (animation_save_file
          [⟨some 7, some [104, 105], 3 / 2, ⟨[(1 / 2, 1 / 3)]⟩, 4⟩,
           ⟨none, none, 0, spline_template_smooth, 9⟩])).map
          Keyframe.spline = [⟨[(1 / 2, 1 / 3)]⟩, spline_template_smooth] ∧
      (animation_load_file [defaultKeyframe 0]
        (animation_save_file
          [⟨some 7, some [104, 105], 3 / 2, ⟨[(1 / 2, 1 / 3)]⟩, 4⟩,
           ⟨none, none, 0, spline_template_smooth, 9⟩])).map
          thumbPresent = [true, false])) := by
  have hnul : ∀ kf ∈ ([⟨some 7, some [104, 105], 3 / 2,
      ⟨[(1 / 2, 1 / 3)]⟩, 4⟩,
      ⟨none, none, 0, spline_template_smooth, 9⟩] : List Keyframe),
      nulFree kf = true := by with_unfolding_all decide
  have hmain := C2_save_load_roundtrip
    [⟨some 7, some [104, 105], 3 / 2, ⟨[(1 / 2, 1 / 3)]⟩, 4⟩,
     ⟨none, none, 0, spline_template_smooth, 9⟩] [defaultKeyframe 0] hnul
  refine ⟨hnul, hmain.1, ?_, ?_, ?_, ?_⟩
  · rw [hmain.2.1]; with_unfolding_all decide
  · rw [hmain.2.2.1]; with_unfolding_all decide
  · rw [hmain.2.2.2.1]; with_unfolding_all decide
  · rw [hmain.2.2.2.2]; with_unfolding_all decide

/-- The absolute start time of the keyframe at index `k`: the sum of
the durations of the rows before it (what
`animation_keyframe_get_time` computes for a live reference). -/
def startTimeAt (store : List Keyframe) (k : Nat) : ℚ :=
  animation_get_length (store.take k)

theorem getLength_nonneg (l : List Keyframe)
    (h : ∀ kf ∈ l, 0 ≤ kf.duration) : 0 ≤ animation_get_length l := by
  induction l with
  | nil => exact le_refl 0
  | cons kf rest ih =>
    rw [animation_get_length]
    have h1 := h kf (List.mem_cons_self kf rest)
    have h2 := ih (fun x hx => h x (List.mem_cons_of_mem kf hx))
    linarith

theorem durAt_eq_of_get? (store : List Keyframe) (k : Nat) (kf : Keyframe)
    (h : store.get? k = some kf) : durAt store k = kf.duration := by
  unfold durAt kfAt
  rw [h]
  rfl

theorem durAt_nonneg (store : List Keyframe)
    (h : ∀ kf ∈ store, 0 ≤ kf.duration) (k : Nat)
    (hk : k < store.length) : 0 ≤ durAt store k := by
  obtain ⟨kf, hget, hmem⟩ := get?_eq_some_mem store k hk
  rw [durAt_eq_of_get? store k kf hget]
  exact h kf hmem

theorem durAt_pos (store : List Keyframe)
    (h : ∀ kf ∈ store, 0 < kf.duration) (k : Nat)
    (hk : k < store.length) : 0 < durAt store k := by
  obtain ⟨kf, hget, hmem⟩ := get?_eq_some_mem store k hk
  rw [durAt_eq_of_get? store k kf hget]
  exact h kf hmem

theorem startTimeAt_zero (store : List Keyframe) : startTimeAt store 0 = 0 :=
  rfl

theorem startTimeAt_succ (store : List Keyframe) : ∀ (k : Nat),
    k < store.length →
    startTimeAt store (k + 1) = startTimeAt store k + durAt store k := by
  induction store with
  | nil => intro k hk; simp at hk
  | cons kf rest ih =>
    intro k hk
    cases k with
    | zero =>
      simp [startTimeAt, animation_get_length, durAt, kfAt]
    | succ k =>
      have hk' : k < rest.length := by simpa using hk
      have hsucc := ih k hk'
      simp only [startTimeAt, List.take_succ_cons, animation_get_length] at hsucc ⊢
      rw [hsucc]
      have hdur : durAt (kf :: rest) (k + 1) = durAt rest k := by
        unfold durAt kfAt
        rfl
      rw [hdur]
      ring

theorem startTimeAt_of_le (store : List Keyframe) (k : Nat)
    (h : store.length ≤ k) :
    startTimeAt store k = animation_get_length store := by
  unfold startTimeAt
  rw [List.take_of_length_le h]

theorem startTimeAt_le_succ (store : List Keyframe)
    (h : ∀ kf ∈ store, 0 ≤ kf.duration) (k : Nat) :
    startTimeAt store k ≤ startTimeAt store (k + 1) := by
  by_cases hk : k < store.length
  · rw [startTimeAt_succ store k hk]
    have := durAt_nonneg store h k hk
    linarith
  · push_neg at hk
    rw [startTimeAt_of_le store k hk, startTimeAt_of_le store (k + 1) (by omega)]

theorem startTimeAt_mono (store : List Keyframe)
    (h : ∀ kf ∈ store, 0 ≤ kf.duration) (i : Nat) : ∀ (j : Nat), i ≤ j →
    startTimeAt store i ≤ startTimeAt store j := by
  intro j
  induction j with
  | zero => intro hij; rw [Nat.le_zero.1 hij]
  | succ j ihj =>
    intro hij
    rcases Nat.lt_or_ge i (j + 1) with hlt | hge
    · exact le_trans (ihj (by omega)) (startTimeAt_le_succ store h j)
    · rw [Nat.le_antisymm hij hge]

theorem startTimeAt_pos (store : List Keyframe)
    (hpos : ∀ kf ∈ store, 0 < kf.duration) (k : Nat) (hk : 1 ≤ k)
    (hlen : 0 < store.length) : 0 < startTimeAt store k := by
  have h1 : startTimeAt store 1 = durAt store 0 := by
    rw [show (1 : Nat) = 0 + 1 from rfl, startTimeAt_succ store 0 hlen,
      startTimeAt_zero]
    ring
  have h2 : 0 < startTimeAt store 1 := by
    rw [h1]
    exact durAt_pos store hpos 0 hlen
  have h3 := startTimeAt_mono store
    (fun kf hkf => le_of_lt (hpos kf hkf)) 1 k hk
  linarith

theorem seekLoop_forward (store : List Keyframe) : ∀ (fuel : Nat) (k : Nat)
    (a t : ℚ), k < store.length → 0 ≤ t →
    startTimeAt store k + t < animation_get_length store →
    store.length - k < fuel →
    ∃ k' t', seekLoop store fuel ⟨true, k, a, t⟩ = ⟨true, k', a, t'⟩ ∧
      startTimeAt store k' + t' = startTimeAt store k + t ∧
      0 ≤ t' ∧ t' < durAt store k' ∧ k' < store.length := by
  intro fuel
  induction fuel with
  | zero => intro k a t _ _ _ hf; exact absurd hf (Nat.not_lt_zero _)
  | succ f ih =>
    intro k a t hk ht htot hf
    by_cases hadv : durAt store k ≤ t
    · have hk1 : k + 1 < store.length := by
        by_contra hnk
        push_neg at hnk
        have h1 : startTimeAt store (k + 1) = animation_get_length store :=
          startTimeAt_of_le store (k + 1) hnk
        have h2 : startTimeAt store (k + 1) =
            startTimeAt store k + durAt store k :=
          startTimeAt_succ store k hk
        linarith
      have hstep := seekLoop_step_advance store f ⟨true, k, a, t⟩ rfl hadv
      have hadvst : advanceIter store ⟨true, k, a, t⟩ =
          ⟨true, k + 1, a, t - durAt store k⟩ := by
        simp [advanceIter, hk1]
      rw [hstep, hadvst]
      have hsum1 : startTimeAt store (k + 1) + (t - durAt store k) =
          startTimeAt store k + t := by
        rw [startTimeAt_succ store k hk]
        ring
      obtain ⟨k', t', heq, hsum, h0', hlt, hk'⟩ :=
        ih (k + 1) a (t - durAt store k) hk1 (sub_nonneg.2 hadv)
          (by rw [hsum1]; exact htot) (by omega)
      exact ⟨k', t', heq, by rw [hsum, hsum1], h0', hlt, hk'⟩
    · exact ⟨k, t,
        seekLoop_settled_valid store (f + 1) ⟨true, k, a, t⟩ ht
          (not_le.1 hadv),
        rfl, ht, not_le.1 hadv, hk⟩

/-- Counterexample to claim C3, at two concrete inputs.  (a) One
keyframe of duration 5 and `d = 10`: the forward seek runs off the end
and invalidates the iterator, the backward seek then skips its loop, so
`time_after_keyframe` ends at −5, not 0.  (b) Keyframes of durations
[0, 5] and `d = 2`: the round trip ends on keyframe 1 (the zero-duration
keyframe 0 is traversed instantly), not keyframe 0. -/
theorem C3_counterexample :
    (animation_iter_seek_relative [⟨none, none, 5, spline_template_smooth, 0⟩]
        (animation_iter_seek_relative
          [⟨none, none, 5, spline_template_smooth, 0⟩]
          (animation_iter_get_first
            [⟨none, none, 5, spline_template_smooth, 0⟩]) 10)
        (-10)).time_after_keyframe ≠ 0 ∧
    (animation_iter_seek_relative
        [⟨none, none, 0, spline_template_smooth, 0⟩,
         ⟨none, none, 5, spline_template_smooth, 1⟩]
        (animation_iter_seek_relative
          [⟨none, none, 0, spline_template_smooth, 0⟩,
           ⟨none, none, 5, spline_template_smooth, 1⟩]
          (animation_iter_get_first
            [⟨none, none, 0, spline_template_smooth, 0⟩,
             ⟨none, none, 5, spline_template_smooth, 1⟩]) 2)
        (-2)).keyframe ≠ 0 := by
  with_unfolding_all decide

/-- Claim C3 as amended: for every animation whose keyframe durations
are all strictly positive and every delta `0 ≤ d <` total length,
seeking forward by `d` from the beginning and then backward by `d`
leaves the iterator valid at keyframe 0 with `time_after_keyframe = 0`
(the reset-to-start backward policy). -/
theorem C3_amended_roundtrip_to_start (store : List Keyframe) (d : ℚ)
    (hpos : ∀ kf ∈ store, 0 < kf.duration) (hd0 : 0 ≤ d)
    (hdlt : d < animation_get_length store) :
    animation_iter_seek_relative store
      (animation_iter_seek_relative store
        (animation_iter_get_first store) d) (-d) = ⟨true, 0, 0, 0⟩ := by
  have hne : store ≠ [] := by
    intro h0
    rw [h0] at hdlt
    rw [animation_get_length] at hdlt
    linarith
  have hlen : 0 < store.length := List.length_pos.2 hne
  have hfirst : animation_iter_get_first store = ⟨true, 0, 0, 0⟩ := by
    unfold animation_iter_get_first
    cases store with
    | nil => exact absurd rfl hne
    | cons a l => simp
  have hdur0 : 0 < durAt store 0 := durAt_pos store hpos 0 hlen
  -- forward seek from the start
  have hfwd : animation_iter_seek_relative store ⟨true, 0, 0, 0⟩ d =
      seekLoop store (2 * store.length + 2) ⟨true, 0, 0, d⟩ := by
    unfold animation_iter_seek_relative
    norm_num
  obtain ⟨k', t', heq, hsum, h0', hlt, hk'⟩ :=
    seekLoop_forward store (2 * store.length + 2) 0 0 d hlen hd0
      (by rw [startTimeAt_zero]; linarith) (by omega)
  rw [hfirst, hfwd, heq]
  -- backward seek
  rw [startTimeAt_zero, zero_add] at hsum
  unfold animation_iter_seek_relative
  have hstate : ({ (⟨true, k', 0, t'⟩ : AnimIter) with
      time_after_keyframe :=
        (⟨true, k', 0, t'⟩ : AnimIter).time_after_keyframe + -d } :
      AnimIter) = ⟨true, k', 0, t' + -d⟩ := rfl
  rw [hstate]
  have htd : t' + -d = -startTimeAt store k' := by linarith
  by_cases hz : startTimeAt store k' = 0
  · have hk0 : k' = 0 := by
      by_contra hne0
      have h1le : 1 ≤ k' := Nat.one_le_iff_ne_zero.2 hne0
      have := startTimeAt_pos store hpos k' h1le hlen
      linarith
    have ht0 : t' + -d = 0 := by rw [htd, hz]; ring
    rw [hk0, ht0]
    exact seekLoop_settled_valid store _ ⟨true, 0, 0, 0⟩ (le_refl 0) hdur0
  · have hSpos : 0 < startTimeAt store k' := by
      have hnn := getLength_nonneg (store.take k')
        (fun kf hkf => le_of_lt (hpos kf (mem_of_mem_take store k' kf hkf)))
      rcases lt_or_eq_of_le hnn with h | h
      · exact h
      · exact absurd h.symm hz
    have hneg : t' + -d < 0 := by rw [htd]; linarith
    have hdk' : 0 < durAt store k' := durAt_pos store hpos k' hk'
    have hnadv : ¬ durAt store k' ≤ t' + -d := by
      push_neg
      linarith
    rw [show 2 * store.length + 2 = (2 * store.length + 1) + 1 by omega,
      seekLoop_step_reset store _ ⟨true, k', 0, t' + -d⟩ rfl hnadv hneg,
      hfirst]
    exact seekLoop_settled_valid store _ ⟨true, 0, 0, 0⟩ (le_refl 0) hdur0

/-- Witness for C3 (amended) at a 2-keyframe store of durations [5, 2]
and `d = 6`, which crosses a keyframe boundary and exercises the
reset-to-start path. -/
theorem C3_witness :
    ((∀ kf ∈ ([⟨none, none, 5, spline_template_smooth, 0⟩,
        ⟨none, none, 2, spline_template_smooth, 1⟩] : List Keyframe),
        0 < kf.duration) ∧
     (0 : ℚ) ≤ 6 ∧
     (6 : ℚ) < animation_get_length
       [⟨none, none, 5, spline_template_smooth, 0⟩,
        ⟨none, none, 2, spline_template_smooth, 1⟩] ∧
     animation_iter_seek_relative
        [⟨none, none, 5, spline_template_smooth, 0⟩,
         ⟨none, none, 2, spline_template_smooth, 1⟩]
        (animation_iter_seek_relative
          [⟨none, none, 5, spline_template_smooth, 0⟩,
           ⟨none, none, 2, spline_template_smooth, 1⟩]
          (animation_iter_get_first
            [⟨none, none, 5, spline_template_smooth, 0⟩,
             ⟨none, none, 2, spline_template_smooth, 1⟩]) 6) (-6) =
       ⟨true, 0, 0, 0⟩) :=
  ⟨by with_unfolding_all decide, by with_unfolding_all decide,
   by with_unfolding_all decide,
   C3_amended_roundtrip_to_start _ 6 (by with_unfolding_all decide)
     (by with_unfolding_all decide) (by with_unfolding_all decide)⟩
